import Mathlib

/-!
Verification development for the orchestration core of the meteor-up fork:
the multi-probe remote-execution protocol in `src/server-info.js` and the
command/hook dispatch engine exercised by `src/__tests__/plugin-api.unit.js`.

JavaScript strings are modelled as `List Char` (`Str`).  The JavaScript
built-ins the source relies on (`String.prototype.split`, `trim`,
`parseInt`, `Array.prototype.join`, `JSON.parse`, property assignment on
plain objects) are embedded as executable Lean functions (`jsSplit`,
`jsTrim`, `jsParseInt`, `jsJoin`, `jsonParse`, `jsSet`).  A JavaScript
exception is modelled as `Except.error ()` (or as `none` where the source
converts the exception to `undefined` via a `.catch`), and JavaScript
`NaN` produced by `parseInt` is modelled as `none : Option Int`.
JSON numbers are kept as their source lexeme (a `Str`), which is faithful
for the integer-only payloads that appear in every statement below and
avoids committing to floating-point semantics.
-/

set_option maxRecDepth 100000

/-- JavaScript strings, modelled as lists of characters. -/
abbrev Str := List Char

/-- Coerce a Lean string literal into the `Str` model. -/
def lit (s : String) : Str := s.toList

/-- The whitespace characters recognised by the JavaScript `trim` /
JSON whitespace rules that matter for ASCII payloads. -/
def isWsChar (c : Char) : Bool := c = ' ' || c = '\n' || c = '\r' || c = '\t'

/-- Drop leading whitespace. -/
def skipWs : Str → Str
  | [] => []
  | c :: cs => if isWsChar c then skipWs cs else c :: cs

/-- Model of `String.prototype.trim`: strip whitespace from both ends. -/
def jsTrim (s : Str) : Str :=
  ((s.dropWhile isWsChar).reverse.dropWhile isWsChar).reverse

/-- Fuel-driven worker for `jsSplit`; the fuel starts at the length of the
input, which suffices because every step consumes at least one character
(the separator is never empty in this development). -/
def jsSplitAux (sep : Str) : Nat → Str → Str → List Str
  | _, [], acc => [acc.reverse]
  | 0, s, acc => [acc.reverse ++ s]
  | fuel + 1, c :: cs, acc =>
    if sep.isPrefixOf (c :: cs) then
      acc.reverse :: jsSplitAux sep fuel ((c :: cs).drop sep.length) []
    else
      jsSplitAux sep fuel cs (c :: acc)

/-- Model of `s.split(sep)` for a non-empty separator string: the list of
substrings of `s` between (non-overlapping, leftmost) occurrences of
`sep`.  Like the JavaScript original it returns `[""]` on empty input and
`[s]` when the separator does not occur. -/
def jsSplit (s sep : Str) : List Str := jsSplitAux sep s.length s []

/-- Model of `parts.join(sep)`. -/
def jsJoin (sep : Str) : List Str → Str
  | [] => []
  | [x] => x
  | x :: xs => x ++ sep ++ jsJoin sep xs

/-- Numeric value of a non-empty run of decimal digits. -/
def digitsVal (s : Str) : Option Nat :=
  let ds := s.takeWhile Char.isDigit
  if ds.isEmpty then none
  else some (ds.foldl (fun a c => a * 10 + (c.toNat - 48)) 0)

/-- Model of `parseInt(s, 10)`: skip leading whitespace, read an optional
sign and then the longest prefix of decimal digits; `none` models `NaN`
(no digits found). -/
def jsParseInt (s : Str) : Option Int :=
  let t := s.dropWhile isWsChar
  match t with
  | '-' :: rest => (digitsVal rest).map (fun n => -(n : Int))
  | '+' :: rest => (digitsVal rest).map (fun n => (n : Int))
  | _ => (digitsVal t).map (fun n => (n : Int))

/-- Model of `s.indexOf(sub) !== -1`: does `sub` occur in `s`? -/
def containsSub (s sub : Str) : Bool :=
  match s with
  | [] => sub.isEmpty
  | _ :: cs => sub.isPrefixOf s || containsSub cs sub

/-- Model of `obj[k] = v` on a plain JavaScript object represented as an
insertion-ordered association list: update the value in place if the key
exists, otherwise append the new binding. -/
def jsSet (obj : List (Str × α)) (k : Str) (v : α) : List (Str × α) :=
  match obj with
  | [] => [(k, v)]
  | (k2, v2) :: rest => if k2 = k then (k2, v) :: rest else (k2, v2) :: jsSet rest k v

/-- Model of reading `obj[k]`: `none` models an absent key (`undefined`). -/
def jsGet (obj : List (Str × α)) (k : Str) : Option α :=
  match obj with
  | [] => none
  | (k2, v2) :: rest => if k2 = k then some v2 else jsGet rest k

/-! ## JSON values and a model of `JSON.parse` -/

/-- JSON values as produced by `JSON.parse`.  Numbers keep their source
lexeme; object members are kept in insertion order with a later duplicate
key overwriting the earlier value in place, as JavaScript objects do. -/
inductive JVal where
  | null : JVal
  | bool : Bool → JVal
  | num : Str → JVal
  | str : Str → JVal
  | arr : List JVal → JVal
  | obj : List (Str × JVal) → JVal
  deriving Repr

/-- Is the value an array?  Models `result instanceof Array`. -/
def JVal.isArr : JVal → Bool
  | .arr _ => true
  | _ => false

/-- Hex digit value, for `\u` escapes. -/
def hexVal (c : Char) : Option Nat :=
  if '0' ≤ c ∧ c ≤ '9' then some (c.toNat - 48)
  else if 'a' ≤ c ∧ c ≤ 'f' then some (c.toNat - 87)
  else if 'A' ≤ c ∧ c ≤ 'F' then some (c.toNat - 55)
  else none

/-- Parse the body of a JSON string literal (the opening quote already
consumed), handling the JSON escape sequences; returns the decoded
characters and the input after the closing quote.  Unescaped control
characters are rejected, as `JSON.parse` rejects them. -/
def parseStringBody : Nat → Str → Option (Str × Str)
  | 0, _ => none
  | fuel + 1, s =>
    match s with
    | [] => none
    | '"' :: rest => some ([], rest)
    | '\\' :: e :: rest =>
      (match e with
       | '"' => (parseStringBody fuel rest).map (fun p => ('"' :: p.1, p.2))
       | '\\' => (parseStringBody fuel rest).map (fun p => ('\\' :: p.1, p.2))
       | '/' => (parseStringBody fuel rest).map (fun p => ('/' :: p.1, p.2))
       | 'b' => (parseStringBody fuel rest).map (fun p => ('\x08' :: p.1, p.2))
       | 'f' => (parseStringBody fuel rest).map (fun p => ('\x0C' :: p.1, p.2))
       | 'n' => (parseStringBody fuel rest).map (fun p => ('\n' :: p.1, p.2))
       | 'r' => (parseStringBody fuel rest).map (fun p => ('\r' :: p.1, p.2))
       | 't' => (parseStringBody fuel rest).map (fun p => ('\t' :: p.1, p.2))
       | 'u' =>
         (match rest with
          | a :: b :: c :: d :: r2 =>
            match hexVal a, hexVal b, hexVal c, hexVal d with
            | some ha, some hb, some hc, some hd =>
              (parseStringBody fuel r2).map
                (fun p => (Char.ofNat (((ha * 16 + hb) * 16 + hc) * 16 + hd) :: p.1, p.2))
            | _, _, _, _ => none
          | _ => none)
       | _ => none)
    | c :: rest =>
      if c.toNat < 32 then none
      else (parseStringBody fuel rest).map (fun p => (c :: p.1, p.2))

/-- Lex the integer part of a JSON number: `0`, or a nonzero digit followed
by more digits. -/
def lexIntPart (s : Str) : Option (Str × Str) :=
  match s with
  | '0' :: r => some (['0'], r)
  | c :: r =>
    if c.isDigit then
      let p := r.span Char.isDigit
      some (c :: p.1, p.2)
    else none
  | [] => none

/-- Lex an optional fraction part `.digits`; with no digit after the dot we
leave the dot unconsumed (the surrounding parse then fails exactly where
`JSON.parse` reports its syntax error). -/
def lexFracOpt (s : Str) : Str × Str :=
  match s with
  | '.' :: r =>
    let p := r.span Char.isDigit
    if p.1.isEmpty then ([], s) else ('.' :: p.1, p.2)
  | _ => ([], s)

/-- Lex an optional exponent part `e[+-]?digits`, same convention as
`lexFracOpt` when the digits are missing. -/
def lexExpOpt (s : Str) : Str × Str :=
  match s with
  | c :: r =>
    if c = 'e' ∨ c = 'E' then
      match r with
      | sg :: r2 =>
        if sg = '+' ∨ sg = '-' then
          let p := r2.span Char.isDigit
          if p.1.isEmpty then ([], s) else (c :: sg :: p.1, p.2)
        else
          let p := r.span Char.isDigit
          if p.1.isEmpty then ([], s) else (c :: p.1, p.2)
      | [] => ([], s)
    else ([], s)
  | [] => ([], s)

/-- Lex a full JSON number, returning its lexeme and the rest. -/
def lexNumber (s : Str) : Option (Str × Str) :=
  match s with
  | '-' :: r =>
    match lexIntPart r with
    | none => none
    | some (ip, r1) =>
      let f := lexFracOpt r1
      let e := lexExpOpt f.2
      some ('-' :: (ip ++ f.1 ++ e.1), e.2)
  | _ =>
    match lexIntPart s with
    | none => none
    | some (ip, r1) =>
      let f := lexFracOpt r1
      let e := lexExpOpt f.2
      some (ip ++ f.1 ++ e.1, e.2)

/-- Parse the comma-separated elements of a non-empty JSON array, the
opening bracket already consumed; `pv` parses one value. -/
def parseElemsF (pv : Str → Option (JVal × Str)) :
    Nat → List JVal → Str → Option (List JVal × Str)
  | 0, _, _ => none
  | fuel + 1, acc, s =>
    match pv s with
    | none => none
    | some (v, rest) =>
      match skipWs rest with
      | ',' :: r2 => parseElemsF pv fuel (acc ++ [v]) r2
      | ']' :: r2 => some (acc ++ [v], r2)
      | _ => none

/-- Parse the members of a non-empty JSON object, the opening brace already
consumed; a duplicate key overwrites in place, as in JavaScript. -/
def parseMembersF (pv : Str → Option (JVal × Str)) :
    Nat → List (Str × JVal) → Str → Option (List (Str × JVal) × Str)
  | 0, _, _ => none
  | fuel + 1, acc, s =>
    match skipWs s with
    | '"' :: r1 =>
      match parseStringBody (r1.length + 1) r1 with
      | none => none
      | some (key, r2) =>
        match skipWs r2 with
        | ':' :: r3 =>
          match pv r3 with
          | none => none
          | some (v, r4) =>
            match skipWs r4 with
            | ',' :: r5 => parseMembersF pv fuel (jsSet acc key v) r5
            | '\x7d' :: r5 => some (jsSet acc key v, r5)
            | _ => none
        | _ => none
    | _ => none

/-- Recursive-descent JSON value parser (fuel-driven); returns the value
and the unconsumed rest of the input. -/
def parseVal : Nat → Str → Option (JVal × Str)
  | 0, _ => none
  | fuel + 1, s =>
    match skipWs s with
    | [] => none
    | '\x7b' :: r =>
      (match skipWs r with
       | '\x7d' :: r2 => some (.obj [], r2)
       | _ => (parseMembersF (parseVal fuel) fuel [] r).map (fun p => (.obj p.1, p.2)))
    | '[' :: r =>
      (match skipWs r with
       | ']' :: r2 => some (.arr [], r2)
       | _ => (parseElemsF (parseVal fuel) fuel [] r).map (fun p => (.arr p.1, p.2)))
    | '"' :: r => (parseStringBody (r.length + 1) r).map (fun p => (.str p.1, p.2))
    | c :: r =>
      if (lit "true").isPrefixOf (c :: r) then some (.bool true, (c :: r).drop 4)
      else if (lit "false").isPrefixOf (c :: r) then some (.bool false, (c :: r).drop 5)
      else if (lit "null").isPrefixOf (c :: r) then some (.null, (c :: r).drop 4)
      else (lexNumber (c :: r)).map (fun p => (.num p.1, p.2))

/-- Model of `JSON.parse`: parse one value and require only whitespace to
remain; `none` models the thrown `SyntaxError`. -/
def jsonParse (s : Str) : Option JVal :=
  match parseVal (s.length + 1) s with
  | some (v, rest) => if (skipWs rest).isEmpty then some v else none
  | none => none

/-! ## Embedding of `src/server-info.js` -/

/-- Embedding of `parseJSONArray(stdout, code)`: on exit code 0, join the
output lines with commas, wrap in brackets, `JSON.parse`; if the parsed
result is not an array, wrap it in a one-element array; on a parse error
or a non-zero (or NaN) exit code, return `null`. -/
def parseJSONArray (stdout : Str) (code : Option Int) : JVal :=
  if code = some 0 then
    match jsonParse ('[' :: (jsJoin [','] (jsSplit stdout ['\n']) ++ [']'])) with
    | some r => if r.isArr then r else .arr [r]
    | none => .null
  else .null

/-- Embedding of the `swarm` collector's parser: on exit code 0,
`JSON.parse` the raw output, returning `null` on a parse error; `null`
on a non-zero exit code. -/
def swarmParser (stdout : Str) (code : Option Int) : JVal :=
  if code = some 0 then
    match jsonParse stdout with
    | some v => v
    | none => .null
  else .null

/-- Embedding of the `swarmToken` collector's parser: the trimmed output
when the exit code is 0 and the output does not contain
`'Error response'`; `null` otherwise. -/
def swarmTokenParser (stdout : Str) (code : Option Int) : JVal :=
  if code = some 0 then
    if containsSub stdout (lit "Error response") then .null
    else .str (jsTrim stdout)
  else .null

/-- One entry of the collector registry `_collectors`. -/
structure Collector where
  name : Str
  command : Str
  parser : Str → Option Int → JVal

/-- The collector registry `_collectors`, in the source's key insertion
order (which `Object.keys` preserves). -/
def _collectors : List Collector :=
  [⟨lit "swarm", lit "docker info --format \x27\x7b\x7bjson .Swarm\x7d\x7d\x27",
    swarmParser⟩,
   ⟨lit "swarmNodes",
    lit "docker node inspect $(docker node ls -q) --format \x27\x7b\x7bjson .\x7d\x7d\x27",
    parseJSONArray⟩,
   ⟨lit "swarmToken", lit "docker swarm join-token worker -q", swarmTokenParser⟩,
   ⟨lit "swarmServices", lit "docker service ls --format \x27\x7b\x7bjson .\x7d\x7d\x27",
    parseJSONArray⟩,
   ⟨lit "images", lit "docker images --format \x27\x7b\x7bjson .\x7d\x7d\x27",
    parseJSONArray⟩]

/-- The start sentinel, named `prefix` in the source. -/
def varStart : Str := lit "<============mup-var-start========"

/-- The stop sentinel, named `suffix` in the source. -/
def varStop : Str := lit "================mup-var-stop=====>"

/-- The inner marker separating a probe's output from its exit-code line. -/
def codeSeperator : Str := lit "mup-var-code======="

/-- Embedding of `generateVarCommand(name, command)`: the script fragment
for one probe, exactly the source's template literal. -/
def generateVarCommand (name command : Str) : Str :=
  lit "\n  echo \"" ++ varStart ++ name ++ varStop ++ lit "\"\n  " ++ command ++
  lit " 2>&1\n  echo \"" ++ codeSeperator ++ lit "\"\n  echo $?\n  "

/-- Embedding of `generateScript()`: concatenate the per-collector script
fragments in registry order. -/
def generateScript : Str :=
  _collectors.foldl (fun script c => script ++ generateVarCommand c.name c.command) []

/-- One demultiplexed probe result, named `(name, output, code)` in the
source; `code = none` models `NaN` from `parseInt`. -/
structure Frame where
  name : Str
  output : Str
  code : Option Int
  deriving Repr, DecidableEq

/-- Decode one chunk (the text following one start sentinel), exactly as
the body of the `map` inside `seperateCollectors` does.  Accessing
`split(...)[1]` when the separator is absent yields `undefined` in
JavaScript and the subsequent method call throws, modelled by
`Except.error ()`. -/
def decodeChunk (c : Str) : Except Unit Frame :=
  match jsSplit c varStop with
  | p0 :: p1 :: _ =>
    let commandOutput := (jsSplit p1 codeSeperator).headD []
    match jsSplit c codeSeperator with
    | _ :: q1 :: _ =>
      .ok ⟨jsTrim p0, jsTrim commandOutput, jsParseInt (jsTrim q1)⟩
    | _ => .error ()
  | _ => .error ()

/-- Embedding of `seperateCollectors(output)`: split on the start
sentinel, drop the leading preamble chunk (`shift`), decode each chunk.
A chunk whose decode throws aborts the whole call, as a thrown
`TypeError` aborts the JavaScript `map`. -/
def seperateCollectors (output : Str) : Except Unit (List Frame) :=
  ((jsSplit output varStart).drop 1).mapM decodeChunk

/-- Embedding of `parseCollectorOutput(name, output, code)`: look the
collector up by name and apply its parser; an unregistered name makes
`_collectors[name]` `undefined` and reading `.parser` throw. -/
def parseCollectorOutput (name output : Str) (code : Option Int) : Except Unit JVal :=
  match _collectors.find? (fun c => c.name == name) with
  | some c => .ok (c.parser output code)
  | none => .error ()

/-- A per-host result object `{_host: host, <collector>: value, ...}`,
with its probe fields as an insertion-ordered association list. -/
structure HostResult where
  host : Str
  fields : List (Str × JVal)

/-- One iteration of the `forEach` inside `createHostResult`: parse the
frame's output with its collector's parser and assign the field. -/
def hostStep (r : HostResult) (d : Frame) : Except Unit HostResult :=
  match parseCollectorOutput d.name d.output d.code with
  | .ok v => .ok ⟨r.host, jsSet r.fields d.name v⟩
  | .error e => .error e

/-- Embedding of `createHostResult(collectorData, host)`: start from
`{_host: host}` and assign one field per decoded frame. -/
def createHostResult (collectorData : List Frame) (host : Str) :
    Except Unit HostResult :=
  collectorData.foldlM hostStep ⟨host, []⟩

/-- A target server; only the `host` field is read by this code. -/
structure Server where
  host : Str
  deriving Repr, DecidableEq

/-- The resolved value of the external `runSSHCommand` primitive. -/
structure SSHResult where
  output : Str
  code : Int

/-- Embedding of `getServerInfo(vars, server)` (the unused `vars` argument
is omitted): run the transport, decode, and build the host result;
the trailing `.catch` turns a transport rejection or any exception
thrown inside the `.then` callback into a resolution with `undefined`
(modelled by `none`), after logging. -/
def getServerInfo (transport : Server → Except Unit SSHResult) (server : Server) :
    Option HostResult :=
  match transport server with
  | .error _ => none
  | .ok result =>
    match seperateCollectors result.output with
    | .error _ => none
    | .ok collectorData =>
      match createHostResult collectorData server.host with
      | .error _ => none
      | .ok hostResult => some hostResult

/-- The fleet aggregate `result` object: host name to `HostResult`. -/
abbrev FleetResult := List (Str × HostResult)

/-- Embedding of the default export `serverInfo(vars, servers)`: map
`getServerInfo` over the servers (Bluebird's `map` keeps results in
input order whatever the concurrency option), then aggregate into a
host-keyed object.  Reading `serverResult._host` when a host's result
is `undefined` throws a `TypeError`, which rejects the returned
promise; this is modelled by `Except.error ()`. -/
def serverInfo (transport : Server → Except Unit SSHResult) (servers : List Server) :
    Except Unit FleetResult :=
  let serverResults := servers.map (getServerInfo transport)
  serverResults.foldlM
    (fun result serverResult =>
      match serverResult with
      | none => .error ()
      | some hostResult => .ok (jsSet result hostResult.host hostResult))
    []

/-! ## Shell-execution model of the generated script

`generateVarCommand name command` emits, for one probe, the script text

  `echo "<start><name><stop>"` ; `<command> 2>&1` ; `echo "<codeSeperator>"` ; `echo $?`

Running it under a POSIX shell, with the probe command writing `output`
on its merged stdout/stderr and exiting with status `code`, appends to
the combined stream: the start/name/stop line, then `output` verbatim,
then the `codeSeperator` line, then the exit-status line.  The `$?` that
the last `echo` prints is the status of the *previous* command — the
`echo "<codeSeperator>"`, which always succeeds — so the printed status
line is `0` whatever `code` was.  The faithful model below therefore
ignores `code`. -/

/-- Combined output one probe contributes when the script fragment from
`generateVarCommand` runs and the probe command prints `output`
(the probe command's own exit status never reaches the stream, see
above). -/
def runVarCommandOutput (name output : Str) : Str :=
  varStart ++ name ++ varStop ++ lit "\n" ++ output ++ codeSeperator ++
  lit "\n" ++ lit "0\n"

/-- Combined output of executing the whole generated script when probe `i`
prints the `i`-th output; the recorded exit codes do not influence the
stream (that is the defect under scrutiny in C4). -/
def executeScript (probes : List (Str × Str × Int)) : Str :=
  probes.foldl (fun acc p => acc ++ runVarCommandOutput p.1 p.2.1) []

/-- Modelled from the spec: spec sections 4.1 and 6 require the trailing
line of each probe's section to hold "the numeric exit status of that
command (`$?`-equivalent)".  This is the stream the script would produce
if `echo $?` observed the probe command's status. -/
def runVarCommandOutputIntended (name output : Str) (code : Int) : Str :=
  varStart ++ name ++ varStop ++ lit "\n" ++ output ++ codeSeperator ++
  lit "\n" ++ lit (toString code) ++ lit "\n"

/-- Modelled from the spec: combined output of the whole script under the
spec's intended framing (see `runVarCommandOutputIntended`). -/
def executeScriptIntended (probes : List (Str × Str × Int)) : Str :=
  probes.foldl (fun acc p => acc ++ runVarCommandOutputIntended p.1 p.2.1 p.2.2) []

/-! ## Command/hook dispatch engine

The engine itself lives in `src/plugin-api.js`, which is not part of the
bundle — only its unit test `src/__tests__/plugin-api.unit.js` is.  The
definitions in this section are therefore modelled from the spec
(sections 4.5, 6 and 7), with an event trace making the order of hook
and handler invocations observable. -/

/-- One observable invocation during `runCommand`: a pre-hook, the
command handler, or a post-hook, identified by a numeric id. -/
inductive Event where
  | preHook : Nat → Event
  | handlerRun : Nat → Event
  | postHook : Nat → Event
  deriving Repr, DecidableEq

/-- Is the event a handler invocation? -/
def isHandlerRun : Event → Bool
  | .handlerRun _ => true
  | _ => false

/-- The two rejection causes of `runCommand` covered by the spec's error
taxonomy: *MissingNameError* and *UnknownCommandError*. -/
inductive RunErr where
  | missingName : RunErr
  | unknownCommand : RunErr
  deriving Repr, DecidableEq

/-- First-match lookup in a registry object modelled as an association
list (keys are unique in a JavaScript object, so first match is the
match). -/
def lookupKey (l : List (String × α)) (k : String) : Option α :=
  match l with
  | [] => none
  | (k2, v) :: rest => if k2 = k then some v else lookupKey rest k

/-- Modelled from the spec: run a list of hooks sequentially in
registration order, appending one event per hook to the trace. -/
def runHookList (mk : Nat → Event) (ids : List Nat) (acc : List Event) : List Event :=
  match ids with
  | [] => acc
  | i :: rest => runHookList mk rest (acc ++ [mk i])

/-- Modelled from the spec: `runCommand(name)` for the missing engine in
`src/plugin-api.js`.  Section 4.5: fail immediately — before any hook or
handler runs — when the name is empty/absent or not registered;
otherwise run the `pre.<name>` hooks in registration order, then the
handler once, then the `post.<name>` hooks, and resolve.  The returned
trace lists every invocation in execution order; the `Except` is the
promise outcome. -/
def runCommand (commands : List (String × Nat)) (hooks : List (String × List Nat))
    (name : Option String) : List Event × Except RunErr Unit :=
  match name with
  | none => ([], .error .missingName)
  | some n =>
    if n = "" then ([], .error .missingName)
    else
      match lookupKey commands n with
      | none => ([], .error .unknownCommand)
      | some h =>
        let trace := runHookList Event.preHook ((lookupKey hooks ("pre." ++ n)).getD []) []
        let trace := trace ++ [Event.handlerRun h]
        let trace := runHookList Event.postHook ((lookupKey hooks ("post." ++ n)).getD []) trace
        (trace, .ok ())

/-- A well-formed single-probe combined output: the `swarm` probe printed
`true` and the stream records exit status 0. -/
def goodOutput : Str := runVarCommandOutput (lit "swarm") (lit "true")

/-- A transport stub whose call rejects for host `h1` and resolves with a
well-formed output for every other host. -/
def demoTransportPartial (s : Server) : Except Unit SSHResult :=
  if s.host = lit "h1" then .error () else .ok ⟨goodOutput, 0⟩

/-- A transport stub that resolves with a well-formed output for every
host. -/
def demoTransportOk (_ : Server) : Except Unit SSHResult := .ok ⟨goodOutput, 0⟩

/-- The host result every host gets under `demoTransportOk`. -/
def demoHostResult (h : Str) : HostResult := ⟨h, [(lit "swarm", .bool true)]⟩

/-- The value `createHostResult` stores for one decoded frame: the
registered parser applied to the frame's output and exit code (`null`
in the unreachable unregistered case, which `parseCollectorOutput`
turns into a throw instead). -/
def applyParser (f : Frame) : JVal :=
  match _collectors.find? (fun c => c.name == f.name) with
  | some c => c.parser f.output f.code
  | none => JVal.null

/-- Synthetic behaviours for all five registered collectors: outputs free
of the sentinel literals and trim-invariant, all exiting with status 0. -/
def demoProbesZero : List (Str × Str × Int) :=
  [(lit "swarm", lit "\x7b\"x\":true\x7d", 0),
   (lit "swarmNodes", lit "\x7b\"a\":1\x7d", 0),
   (lit "swarmToken", lit "tok", 0),
   (lit "swarmServices", lit "ss", 0),
   (lit "images", lit "im", 0)]

/-- The frames `demoProbesZero` should decode to: same triples, in
registration order. -/
def demoFramesZero : List Frame :=
  [⟨lit "swarm", lit "\x7b\"x\":true\x7d", some 0⟩,
   ⟨lit "swarmNodes", lit "\x7b\"a\":1\x7d", some 0⟩,
   ⟨lit "swarmToken", lit "tok", some 0⟩,
   ⟨lit "swarmServices", lit "ss", some 0⟩,
   ⟨lit "images", lit "im", some 0⟩]

/-! ## Helper lemmas -/

theorem runHookList_eq (mk : Nat → Event) (ids : List Nat) (acc : List Event) :
    runHookList mk ids acc = acc ++ ids.map mk := by
  induction ids generalizing acc with
  | nil => simp [runHookList]
  | cons i t ih => simp [runHookList, ih]

theorem jsSet_eq_append (obj : List (Str × α)) (k : Str) (v : α)
    (h : jsGet obj k = none) : jsSet obj k v = obj ++ [(k, v)] := by
  induction obj with
  | nil => rfl
  | cons p t ih =>
    obtain ⟨k2, v2⟩ := p
    by_cases hk : k2 = k
    · simp [jsGet, hk] at h
    · simp only [jsGet, if_neg hk] at h
      simp [jsSet, hk, ih h]

theorem jsGet_append_of_none (a b : List (Str × α)) (k : Str)
    (h : jsGet a k = none) : jsGet (a ++ b) k = jsGet b k := by
  induction a with
  | nil => rfl
  | cons p t ih =>
    obtain ⟨k2, v2⟩ := p
    by_cases hk : k2 = k
    · simp [jsGet, hk] at h
    · simp only [jsGet, if_neg hk] at h
      simp [jsGet, hk, ih h]

theorem jsGet_map_eq (frames : List Frame) (g : Frame → JVal) (f : Frame)
    (hf : f ∈ frames) (hnd : (frames.map Frame.name).Nodup) :
    jsGet (frames.map fun x => (x.name, g x)) f.name = some (g f) := by
  induction frames with
  | nil => cases hf
  | cons a t ih =>
    rcases List.mem_cons.mp hf with rfl | hft
    · simp [jsGet]
    · have hna : f.name ∈ t.map Frame.name := List.mem_map_of_mem Frame.name hft
      have hne : a.name ≠ f.name := by
        intro hcontra
        exact (List.nodup_cons.mp hnd).1 (hcontra ▸ hna)
      have hnd2 : (t.map Frame.name).Nodup := (List.nodup_cons.mp hnd).2
      simp [jsGet, hne, ih hft hnd2]

theorem parseCollectorOutput_ok (f : Frame)
    (h : (_collectors.find? (fun c => c.name == f.name)).isSome = true) :
    parseCollectorOutput f.name f.output f.code = .ok (applyParser f) := by
  unfold parseCollectorOutput applyParser
  cases hfind : _collectors.find? (fun c => c.name == f.name) with
  | none => rw [hfind] at h; simp at h
  | some c => simp [hfind]

theorem applyParser_null (f : Frame) (h : ¬ f.code = some 0) :
    applyParser f = JVal.null := by
  unfold applyParser
  cases hfind : _collectors.find? (fun c => c.name == f.name) with
  | none => rfl
  | some c =>
    have hm := List.mem_of_find?_eq_some hfind
    simp only [_collectors, List.mem_cons, List.mem_singleton, List.not_mem_nil, or_false] at hm
    rcases hm with rfl | rfl | rfl | rfl | rfl <;>
      simp [swarmParser, parseJSONArray, swarmTokenParser, h]

theorem createHostResult_fold (frames : List Frame) (host : Str)
    (acc : List (Str × JVal))
    (hreg : ∀ f ∈ frames, (_collectors.find? (fun c => c.name == f.name)).isSome = true)
    (hnd : (frames.map Frame.name).Nodup)
    (hacc : ∀ f ∈ frames, jsGet acc f.name = none) :
    frames.foldlM hostStep (⟨host, acc⟩ : HostResult) =
      .ok ⟨host, acc ++ frames.map (fun f => (f.name, applyParser f))⟩ := by
  induction frames generalizing acc with
  | nil => simp only [List.foldlM_nil, List.map_nil, List.append_nil]; rfl
  | cons f t ih =>
    have hstep : hostStep ⟨host, acc⟩ f = .ok ⟨host, acc ++ [(f.name, applyParser f)]⟩ := by
      have h1 : hostStep ⟨host, acc⟩ f = .ok ⟨host, jsSet acc f.name (applyParser f)⟩ := by
        unfold hostStep
        rw [parseCollectorOutput_ok f (hreg f (List.mem_cons_self f t))]
      rw [h1, jsSet_eq_append acc f.name (applyParser f) (hacc f (List.mem_cons_self f t))]
    have hnotin : f.name ∉ t.map Frame.name := (List.nodup_cons.mp hnd).1
    have hacc2 : ∀ g ∈ t, jsGet (acc ++ [(f.name, applyParser f)]) g.name = none := by
      intro g hg
      rw [jsGet_append_of_none acc _ g.name (hacc g (List.mem_cons_of_mem f hg))]
      have hne : f.name ≠ g.name := by
        intro hcontra
        exact hnotin (hcontra ▸ List.mem_map_of_mem Frame.name hg)
      simp [jsGet, hne]
    have ih2 := ih (acc ++ [(f.name, applyParser f)]) (fun g hg => hreg g (List.mem_cons_of_mem f hg))
      (List.nodup_cons.mp hnd).2 hacc2
    calc (f :: t).foldlM hostStep (⟨host, acc⟩ : HostResult)
        = t.foldlM hostStep (⟨host, acc ++ [(f.name, applyParser f)]⟩ : HostResult) := by
          rw [List.foldlM_cons, hstep]; rfl
      _ = .ok ⟨host, acc ++ (f :: t).map (fun f => (f.name, applyParser f))⟩ := by
          rw [ih2]; simp

/-! ## Claim theorems -/

/-- C1: the claim says that when one server's transport call rejects and
the others' succeed, `serverInfo` resolves, without throwing, to a
fleet result holding exactly the successful hosts.  The code does
absorb and log the per-host failure inside `getServerInfo` (whose
`.catch` resolves the per-host promise with `undefined`, modelled by
`none`), but the aggregation loop in `serverInfo` then reads `._host`
of `undefined` and throws a `TypeError`, so the fleet promise rejects.
Evaluated at the failing input — transport rejecting for `h1` and
succeeding for `h2` — and contrasted with the all-success run, which
resolves as the claim expects. -/
theorem serverInfo_rejects_when_one_host_fails :
    serverInfo demoTransportPartial [⟨lit "h1"⟩, ⟨lit "h2"⟩] = .error ()
    ∧ getServerInfo demoTransportPartial ⟨lit "h1"⟩ = none
    ∧ getServerInfo demoTransportPartial ⟨lit "h2"⟩ = some (demoHostResult (lit "h2"))
    ∧ serverInfo demoTransportOk [⟨lit "h1"⟩, ⟨lit "h2"⟩] =
        .ok [(lit "h1", demoHostResult (lit "h1")), (lit "h2", demoHostResult (lit "h2"))] :=
  ⟨rfl, rfl, rfl, rfl⟩

/-- C2 (counterexample): `seperateCollectors` throws — the whole decode
aborts, modelled by `Except.error` — on a combined output whose second
chunk is missing the stop sentinel, so the claim's "it never throws and
never aborts decoding of the sibling chunks" fails: the well-formed
sibling `swarm` chunk is lost too. -/
theorem seperateCollectors_throws_on_malformed :
    seperateCollectors (goodOutput ++ varStart ++ lit "swarm") = .error () := rfl

/-- C2 (amended): a chunk missing the stop sentinel or the inner code
separator makes `seperateCollectors` throw, aborting the whole decode;
only a missing or non-numeric trailing integer is tolerated — that
probe's exit code becomes NaN (`none`) while the sibling chunks decode
normally. -/
theorem seperateCollectors_malformed_cases :
    seperateCollectors (goodOutput ++ varStart ++ lit "swarm") = .error ()
    ∧ seperateCollectors
        (goodOutput ++ varStart ++ lit "swarm" ++ varStop ++ lit "\nout") = .error ()
    ∧ seperateCollectors
        (goodOutput ++ varStart ++ lit "images" ++ varStop ++ lit "\nx" ++
          codeSeperator ++ lit "\nnotanumber\n") =
        .ok [⟨lit "swarm", lit "true", some 0⟩, ⟨lit "images", lit "x", none⟩] :=
  ⟨rfl, rfl, rfl⟩

/-- C3 (counterexample): with the legitimately decodable empty frame list
(the decode of the empty combined output), the built HostResult carries
the host key but no entry at all for the registered `swarm` probe — the
key is absent rather than bound to `null` — refuting "exactly one entry
per registered probe ... with value null ... whenever its frame is
missing". -/
theorem createHostResult_missing_frame_absent :
    seperateCollectors (lit "") = .ok []
    ∧ createHostResult [] (lit "host1") = .ok ⟨lit "host1", []⟩
    ∧ (_collectors.find? (fun c => c.name == lit "swarm")).isSome = true
    ∧ jsGet ([] : List (Str × JVal)) (lit "swarm") = none :=
  ⟨rfl, rfl, rfl, rfl⟩

/-- C3 (amended): `createHostResult` always sets the host key, and builds
exactly one entry per frame of the decoded list (in frame order),
provided every frame's name is registered and the names are distinct;
the entry's value is `null` whenever the frame's exit code is non-zero
or NaN, since every registered parser returns `null` then.  A probe
whose frame is missing from the list contributes no entry, and an
unregistered frame name makes the call throw. -/
theorem createHostResult_shape (frames : List Frame) (host : Str)
    (hreg : ∀ f ∈ frames, (_collectors.find? (fun c => c.name == f.name)).isSome = true)
    (hnd : (frames.map Frame.name).Nodup) :
    createHostResult frames host =
      .ok ⟨host, frames.map (fun f => (f.name, applyParser f))⟩
    ∧ ∀ f ∈ frames, ¬ f.code = some 0 →
        jsGet (frames.map (fun g => (g.name, applyParser g))) f.name = some JVal.null := by
  constructor
  · have h := createHostResult_fold frames host [] hreg hnd (fun f _ => rfl)
    simpa [createHostResult] using h
  · intro f hf hc
    rw [jsGet_map_eq frames applyParser f hf hnd, applyParser_null f hc]

/-- Witness for `createHostResult_shape`: one registered `swarm` frame
with exit code 1 yields the host key plus a single `swarm` entry bound
to `null`. -/
theorem createHostResult_shape_witness :
    createHostResult [⟨lit "swarm", lit "x", some 1⟩] (lit "h") =
      .ok ⟨lit "h", [(lit "swarm", applyParser ⟨lit "swarm", lit "x", some 1⟩)]⟩
    ∧ jsGet [(lit "swarm", applyParser ⟨lit "swarm", lit "x", some 1⟩)] (lit "swarm") =
      some JVal.null := by
  have h := createHostResult_shape [⟨lit "swarm", lit "x", some 1⟩] (lit "h")
    (by decide) (by decide)
  exact ⟨h.1, h.2 ⟨lit "swarm", lit "x", some 1⟩ (List.mem_singleton.mpr rfl) (by decide)⟩

/-- C4: executing the generated script cannot round-trip the exit code.
The script fragment runs `echo "<codeSeperator>"` between the probe
command and `echo $?`, so `$?` is the status of that `echo` — always 0
— and the decoded frame carries exit code 0 instead of the probe's
actual 1.  The registry's parsers all branch on the decoded code and
spec section 4.1 requires "the numeric exit status of that command",
so this is a defect of the script, not of the decoder: names and
outputs do round-trip (the all-zero five-probe decode below returns the
original triples in registration order), and under the spec's intended
framing (`executeScriptIntended`) the full triple round-trips. -/
theorem script_round_trip_loses_exit_code :
    seperateCollectors (executeScript [(lit "swarm", lit "hello", 1)]) =
        .ok [⟨lit "swarm", lit "hello", some 0⟩]
    ∧ (⟨lit "swarm", lit "hello", some 0⟩ : Frame) ≠ ⟨lit "swarm", lit "hello", some 1⟩
    ∧ seperateCollectors (executeScriptIntended [(lit "swarm", lit "hello", 1)]) =
        .ok [⟨lit "swarm", lit "hello", some 1⟩]
    ∧ seperateCollectors (executeScript demoProbesZero) = .ok demoFramesZero :=
  ⟨rfl, by decide, rfl, rfl⟩

/-- C5: for a registered command, `runCommand` resolves, with every
`pre` hook invoked (in registration order) before the handler, the
handler invoked exactly once, and every `post` hook invoked after it —
the trace is exactly pre-hooks, handler, post-hooks. -/
theorem runCommand_hook_order (commands : List (String × Nat))
    (hooks : List (String × List Nat)) (n : String) (h : Nat)
    (hne : n ≠ "") (hc : lookupKey commands n = some h) :
    runCommand commands hooks (some n) =
      (((lookupKey hooks ("pre." ++ n)).getD []).map Event.preHook ++
        [Event.handlerRun h] ++
        ((lookupKey hooks ("post." ++ n)).getD []).map Event.postHook, .ok ())
    ∧ (runCommand commands hooks (some n)).1.filter isHandlerRun = [Event.handlerRun h] := by
  have h1 : runCommand commands hooks (some n) =
      (((lookupKey hooks ("pre." ++ n)).getD []).map Event.preHook ++
        [Event.handlerRun h] ++
        ((lookupKey hooks ("post." ++ n)).getD []).map Event.postHook, .ok ()) := by
    simp [runCommand, hne, hc, runHookList_eq]
  refine ⟨h1, ?_⟩
  rw [h1]
  simp [List.filter_append, List.filter_map, isHandlerRun, Function.comp_def]

/-- Witness for `runCommand_hook_order` at the unit test's registry:
one `pre.test.logs` hook, one `post.test.logs` hook, handler id 0. -/
theorem runCommand_hook_order_witness :
    runCommand [("test.logs", 0)] [("pre.test.logs", [0]), ("post.test.logs", [0])]
        (some "test.logs") =
      ([Event.preHook 0, Event.handlerRun 0, Event.postHook 0], .ok ())
    ∧ (runCommand [("test.logs", 0)] [("pre.test.logs", [0]), ("post.test.logs", [0])]
        (some "test.logs")).1.filter isHandlerRun = [Event.handlerRun 0] := by
  have h := runCommand_hook_order [("test.logs", 0)]
    [("pre.test.logs", [0]), ("post.test.logs", [0])] "test.logs" 0 (by decide) rfl
  exact ⟨h.1, h.2⟩

/-- C6: `runCommand` rejects immediately — with an empty invocation
trace, so no hook and no handler ran — when called with no name, with
an empty name, or with a name not present in the command registry. -/
theorem runCommand_rejects_bad_name (commands : List (String × Nat))
    (hooks : List (String × List Nat)) :
    runCommand commands hooks none = ([], .error .missingName)
    ∧ runCommand commands hooks (some "") = ([], .error .missingName)
    ∧ ∀ n, n ≠ "" → lookupKey commands n = none →
        runCommand commands hooks (some n) = ([], .error .unknownCommand) := by
  refine ⟨rfl, by simp [runCommand], ?_⟩
  intro n hn hl
  simp [runCommand, hn, hl]

/-- Witness for `runCommand_rejects_bad_name`: the unit test's unknown
command name rejects against a registry holding only `test.logs`. -/
theorem runCommand_rejects_bad_name_witness :
    runCommand [("test.logs", 0)] [] (some "nonexistent.command") =
      ([], .error .unknownCommand) :=
  (runCommand_rejects_bad_name [("test.logs", 0)] []).2.2 "nonexistent.command"
    (by decide) rfl

/-- C7: the JSON-lines parser `parseJSONArray` returns the two parsed
objects on the claim's two-line input with exit code 0; returns `null`
for every non-zero (or NaN) exit code; returns `null` whenever
`JSON.parse` fails on the comma-joined, bracket-wrapped output; and on
the single non-array JSON value `5` returns that value wrapped in a
one-element array. -/
theorem parseJSONArray_spec :
    parseJSONArray (lit "\x7b\"a\":1\x7d\n\x7b\"b\":2\x7d") (some 0) =
        .arr [.obj [(lit "a", .num (lit "1"))], .obj [(lit "b", .num (lit "2"))]]
    ∧ (∀ stdout code, ¬ code = some 0 → parseJSONArray stdout code = .null)
    ∧ (∀ stdout, jsonParse ('[' :: (jsJoin [','] (jsSplit stdout ['\n']) ++ [']'])) = none →
        parseJSONArray stdout (some 0) = .null)
    ∧ parseJSONArray (lit "not json") (some 0) = .null
    ∧ jsonParse (lit "5") = some (.num (lit "5"))
    ∧ (JVal.num (lit "5")).isArr = false
    ∧ parseJSONArray (lit "5") (some 0) = .arr [.num (lit "5")] := by
  refine ⟨rfl, ?_, ?_, rfl, rfl, rfl, rfl⟩
  · intro stdout code hc
    simp [parseJSONArray, hc]
  · intro stdout hp
    simp [parseJSONArray, hp]

/-- Witness for `parseJSONArray_spec` at concrete inputs: non-zero exit
code, and a stdout whose wrapped join fails to parse. -/
theorem parseJSONArray_spec_witness :
    parseJSONArray (lit "x") (some 2) = .null
    ∧ parseJSONArray (lit "\x7d") (some 0) = .null :=
  ⟨parseJSONArray_spec.2.1 (lit "x") (some 2) (by decide),
   parseJSONArray_spec.2.2.1 (lit "\x7d") rfl⟩

/-- C8: the swarm collector's parser returns the `JSON.parse` of the
output on exit code 0 and `null` on any parse error or any non-zero
(or NaN) exit code. -/
theorem swarmParser_spec :
    swarmParser (lit "\x7b\"x\":true\x7d") (some 0) = .obj [(lit "x", .bool true)]
    ∧ (∀ stdout code, ¬ code = some 0 → swarmParser stdout code = .null)
    ∧ (∀ stdout v, jsonParse stdout = some v → swarmParser stdout (some 0) = v)
    ∧ (∀ stdout, jsonParse stdout = none → swarmParser stdout (some 0) = .null)
    ∧ swarmParser (lit "not json") (some 0) = .null := by
  refine ⟨rfl, ?_, ?_, ?_, rfl⟩
  · intro stdout code hc
    simp [swarmParser, hc]
  · intro stdout v hv
    simp [swarmParser, hv]
  · intro stdout hv
    simp [swarmParser, hv]

/-- Witness for `swarmParser_spec` at concrete inputs. -/
theorem swarmParser_spec_witness :
    swarmParser (lit "true") (some 1) = .null
    ∧ swarmParser (lit "true") (some 0) = .bool true
    ∧ swarmParser (lit "x") (some 0) = .null :=
  ⟨swarmParser_spec.2.1 (lit "true") (some 1) (by decide),
   swarmParser_spec.2.2.1 (lit "true") (.bool true) rfl,
   swarmParser_spec.2.2.2.1 (lit "x") rfl⟩

/-- C10: on exit code 0 and empty output, `parseJSONArray` returns the
empty array (the join of `[""]` is empty and `[]` parses to an empty
array), not `null`. -/
theorem parseJSONArray_empty_is_empty_array :
    parseJSONArray (lit "") (some 0) = .arr []
    ∧ JVal.arr [] ≠ JVal.null :=
  ⟨rfl, fun hcontra => JVal.noConfusion hcontra⟩
